import Mathlib

/-!
Shallow embedding of the juggling game core (`src/components/JugglingGame.tsx`)
and proofs about its per-frame behavior.

Modelling conventions:
* JS numbers are modelled as rationals (`ℚ`); all constants in the source are
  exact decimals, and no transcendental value other than `Math.sqrt` occurs in
  the game logic.  The single comparison `Math.sqrt s < r` (with `s ≥ 0`) is
  encoded by the exactly equivalent squared comparison `0 < r ∧ s < r ^ 2`.
* `Date.now()` timestamps are modelled as integers (milliseconds), passed to
  the frame update as the parameter `now`.
* `Math.random()` draws are modelled as explicit oracle inputs collected in a
  `FrameRand` record, one slot per call site of the frame.
* The mutable refs (`ballsRef`, `handsRef`, `scoreRef`, `lastSpawnTimeRef`,
  `throwCooldowns`, `gameStateRef`, `targetBallCount`) form the `GameData`
  state record; each JS in-place mutation becomes a functional update, in the
  exact order the statements execute.
-/

/-- Hand side, the values of the `'left' | 'right'` union in the source. -/
inductive Side where
  | left
  | right
  deriving DecidableEq, Repr

/-- Mirror of the `GameState` enum in `src/types.ts`. -/
inductive GameState where
  | IDLE
  | PLAYING
  | GAME_OVER
  deriving DecidableEq, Repr

/-- Mirror of the `Ball` interface in `src/types.ts`. -/
structure Ball where
  id : ℚ
  x : ℚ
  y : ℚ
  vx : ℚ
  vy : ℚ
  radius : ℚ
  color : String
  isActive : Bool
  heldBy : Option Side
  deriving DecidableEq, Repr

/-- Mirror of the `HandPosition` interface in `src/types.ts`. -/
structure HandPosition where
  x : ℚ
  y : ℚ
  vx : ℚ
  vy : ℚ
  isPresent : Bool
  deriving DecidableEq, Repr

/-- The `handsRef.current` record: one `HandPosition` per side. -/
structure Hands where
  left : HandPosition
  right : HandPosition
  deriving DecidableEq, Repr

/-- Read the hand of a given side (`handsRef.current[hName]`). -/
def Hands.get (h : Hands) : Side → HandPosition
  | Side.left => h.left
  | Side.right => h.right

/-- The `throwCooldowns.current` record: last-throw timestamp per side. -/
structure Cooldowns where
  left : ℤ
  right : ℤ
  deriving DecidableEq, Repr

/-- Read a side's last-throw timestamp. -/
def Cooldowns.get (c : Cooldowns) : Side → ℤ
  | Side.left => c.left
  | Side.right => c.right

/-- Write a side's last-throw timestamp (`throwCooldowns.current[hName] = now`). -/
def Cooldowns.set (c : Cooldowns) : Side → ℤ → Cooldowns
  | Side.left, t => { c with left := t }
  | Side.right, t => { c with right := t }

/-- Oracle for the `Math.random()` calls made during one `updateGame` frame:
one slot per call site (spawn id / x / vx / hue, per-side throw jitter, and
per-ball-index respawn x / vx). -/
structure FrameRand where
  spawnId : ℚ
  spawnX : ℚ
  spawnVx : ℚ
  spawnHue : ℚ
  throwJitter : Side → ℚ
  respawnX : ℕ → ℚ
  respawnVx : ℕ → ℚ

/-- The whole mutable state read and written by `updateGame`. -/
structure GameData where
  gameState : GameState
  score : ℕ
  targetBallCount : ℕ
  balls : List Ball
  hands : Hands
  lastSpawnTime : ℤ
  throwCooldowns : Cooldowns
  deriving DecidableEq, Repr

-- Physics constants, verbatim from `JugglingGame.tsx`.

/-- Constant downward acceleration per frame (`GRAVITY = 0.00015`). -/
def GRAVITY : ℚ := 0.00015

/-- Radius of every spawned ball (`BALL_RADIUS = 0.04`). -/
def BALL_RADIUS : ℚ := 0.04

/-- Hand capture radius (`HAND_RADIUS = 0.1`). -/
def HAND_RADIUS : ℚ := 0.1

/-- Upward hand velocity needed to trigger a throw (`THROW_THRESHOLD = -0.08`). -/
def THROW_THRESHOLD : ℚ := -0.08

/-- Minimum milliseconds between throws of one hand (`THROW_COOLDOWN = 400`). -/
def THROW_COOLDOWN : ℤ := 400

/-- Cap on the visual stack index (`MAX_STACK_HEIGHT = 4`). -/
def MAX_STACK_HEIGHT : ℕ := 4

/-- Cosmetic `hsl(...)` color string built from one random draw. -/
def hslColor (r : ℚ) : String :=
  "hsl(" ++ toString (r * 360) ++ ", 70%, 60%)"

/-- Ball state after a throw transfers hand velocity, in statement order:
`vy = hand.vy * 0.25 - 0.005`, `vx = hand.vx * 0.25` then `vx += (rand - 0.5) * 0.005`,
with `heldBy = null`. -/
def thrownBall (hvx hvy jit : ℚ) (b : Ball) : Ball :=
  { b with
    heldBy := none
    vy := hvy * 0.25 - 0.005
    vx := hvx * 0.25 + (jit - 0.5) * 0.005 }

/-- Replace the last ball held by side `s` (the top of that hand's stack,
`heldBalls[heldBalls.length - 1]`) by `f` of it; other balls unchanged. -/
def throwLast (f : Ball → Ball) (s : Side) : List Ball → List Ball
  | [] => []
  | b :: bs =>
    if bs.any (fun b2 => b2.heldBy = some s) then b :: throwLast f s bs
    else if b.heldBy = some s then f b :: bs
    else b :: throwLast f s bs

/-- Reposition of one held ball at stack index `index`:
`x = hand.x`, `y = hand.y - 0.05 - min index MAX_STACK_HEIGHT * (radius * 1.2)`,
`vx = hand.vx`, `vy = hand.vy`. -/
def positionHeld (hand : HandPosition) (index : ℕ) (b : Ball) : Ball :=
  { b with
    x := hand.x
    y := hand.y - 0.05 - (min index MAX_STACK_HEIGHT : ℚ) * (b.radius * 1.2)
    vx := hand.vx
    vy := hand.vy }

/-- Walk the registry repositioning each ball held by `s`, counting the stack
index of held balls only (`currentHeld.forEach((ball, index) => ...)`). -/
def repositionAux (hand : HandPosition) (s : Side) : List Ball → ℕ → List Ball
  | [], _ => []
  | b :: bs, idx =>
    if b.heldBy = some s then positionHeld hand idx b :: repositionAux hand s bs (idx + 1)
    else b :: repositionAux hand s bs idx

/-- Drop-on-loss update of one ball: clear `heldBy` when held by `s`. -/
def dropBall (s : Side) (b : Ball) : Ball :=
  if b.heldBy = some s then { b with heldBy := none } else b

/-- The throw-gate condition of `updateGame`:
`hand.vy < THROW_THRESHOLD && now - throwCooldowns.current[hName] > THROW_COOLDOWN`. -/
def throwGate (hand : HandPosition) (cd : ℤ) (now : ℤ) : Prop :=
  hand.vy < THROW_THRESHOLD ∧ now - cd > THROW_COOLDOWN

instance (hand : HandPosition) (cd now : ℤ) : Decidable (throwGate hand cd now) := by
  unfold throwGate; infer_instance

/-- One iteration of the per-hand `forEach` body of `updateGame`: throw
evaluation, held-ball repositioning, and drop-on-loss for side `s`. -/
def processHand (now : ℤ) (jit : ℚ) (s : Side) (st : GameData) : GameData :=
  let hand := st.hands.get s
  let heldBalls := st.balls.filter (fun b => b.heldBy = some s)
  if hand.isPresent ∧ heldBalls.length > 0 then
    let st1 :=
      if throwGate hand (st.throwCooldowns.get s) now then
        { st with
          balls := throwLast (thrownBall hand.vx hand.vy jit) s st.balls
          throwCooldowns := st.throwCooldowns.set s now
          score := st.score + 10 }
      else st
    { st1 with balls := repositionAux hand s st1.balls 0 }
  else if ¬hand.isPresent ∧ heldBalls.length > 0 then
    { st with balls := st.balls.map (dropBall s) }
  else st

/-- Explicit-Euler integration of a free ball:
`vy += GRAVITY; y += vy; x += vx`. -/
def integrateBall (b : Ball) : Ball :=
  { b with
    vy := b.vy + GRAVITY
    y := b.y + (b.vy + GRAVITY)
    x := b.x + b.vx }

/-- Wall bounce: when `x < radius || x > 1 - radius`, multiply `vx` by `-0.8`
and clamp `x` to `[radius, 1 - radius]` via `max radius (min (1 - radius) x)`. -/
def wallBounce (b : Ball) : Ball :=
  if b.x < b.radius ∨ b.x > 1 - b.radius then
    { b with
      vx := b.vx * (-0.8)
      x := max b.radius (min (1 - b.radius) b.x) }
  else b

/-- Catch condition of `checkHandCatch`: the elliptical distance
`Math.sqrt (dx^2 + (0.75*dy)^2)` is below `ball.radius + HAND_RADIUS / 2`
(encoded as the equivalent squared comparison), and `ball.vy > -0.01`. -/
def catchCond (b : Ball) (hand : HandPosition) : Prop :=
  (0 < b.radius + HAND_RADIUS / 2 ∧
    (b.x - hand.x) ^ 2 + ((b.y - hand.y) * 0.75) ^ 2 < (b.radius + HAND_RADIUS / 2) ^ 2) ∧
  b.vy > -0.01

instance (b : Ball) (hand : HandPosition) : Decidable (catchCond b hand) := by
  unfold catchCond; infer_instance

/-- Mirror of `checkHandCatch`: a present hand catches an unheld ball within
the elliptical radius whose `vy > -0.01`, zeroing its velocity. -/
def checkHandCatch (b : Ball) (hand : HandPosition) (handName : Side) : Ball :=
  if ¬hand.isPresent ∨ b.heldBy ≠ none then b
  else if catchCond b hand then { b with heldBy := some handName, vx := 0, vy := 0 }
  else b

/-- Mirror of `respawnBall`: reposition a ball that fell past the floor. -/
def respawnBall (rx rvx : ℚ) (b : Ball) : Ball :=
  { b with
    x := 0.2 + rx * 0.6
    y := -0.2
    vx := (rvx - 0.5) * 0.005
    vy := 0
    heldBy := none }

/-- Physics pass for the ball at registry index `i`: free balls are integrated,
wall-bounced, catch-checked against left then right, then floor-checked;
held balls are untouched. -/
def physicsStep (rnd : FrameRand) (hands : Hands) (i : ℕ) (b : Ball) : Ball :=
  if b.heldBy ≠ none then b
  else
    let b1 := wallBounce (integrateBall b)
    let b2 := checkHandCatch b1 hands.left Side.left
    let b3 := checkHandCatch b2 hands.right Side.right
    if b3.y > 1.2 then respawnBall (rnd.respawnX i) (rnd.respawnVx i) b3 else b3

/-- Mirror of `spawnBall`: the ball pushed onto the registry. -/
def spawnBall (now : ℤ) (rnd : FrameRand) : Ball :=
  { id := (now : ℚ) + rnd.spawnId
    x := 0.2 + rnd.spawnX * 0.6
    y := -0.1
    vx := (rnd.spawnVx - 0.5) * 0.005
    vy := 0
    radius := BALL_RADIUS
    color := hslColor rnd.spawnHue
    isActive := true
    heldBy := none }

/-- The spawn-gate condition of `updateGame`:
`ballsRef.current.length < targetBallCount && now - lastSpawnTimeRef.current > 500`. -/
def spawnGate (now : ℤ) (st : GameData) : Prop :=
  st.balls.length < st.targetBallCount ∧ now - st.lastSpawnTime > 500

instance (now : ℤ) (st : GameData) : Decidable (spawnGate now st) := by
  unfold spawnGate; infer_instance

/-- Spawn scheduling step of `updateGame`. -/
def spawnStep (now : ℤ) (rnd : FrameRand) (st : GameData) : GameData :=
  if spawnGate now st then
    { st with balls := st.balls ++ [spawnBall now rnd], lastSpawnTime := now }
  else st

/-- Mirror of `updateGame`: no-op unless Playing; otherwise spawn scheduling,
per-hand processing in left-then-right order, then per-ball physics. -/
def updateGame (now : ℤ) (rnd : FrameRand) (st : GameData) : GameData :=
  if st.gameState ≠ GameState.PLAYING then st
  else
    let st1 := spawnStep now rnd st
    let st2 := processHand now (rnd.throwJitter Side.left) Side.left st1
    let st3 := processHand now (rnd.throwJitter Side.right) Side.right st2
    { st3 with balls := st3.balls.mapIdx (fun i b => physicsStep rnd st3.hands i b) }

/-- One landmark of the 21-point hand model, from the `Results` interface. -/
structure Landmark where
  x : ℚ
  y : ℚ
  z : ℚ
  deriving DecidableEq, Repr

/-- One entry of `multiHandedness`: the side label reported by the tracker. -/
structure Handedness where
  label : String
  score : ℚ
  deriving DecidableEq, Repr

/-- The landmark-frame payload of the `onResults` callback (the `image` field
is rendering passthrough only and is omitted).  The source indexes
`multiHandedness[i]` in lockstep with `multiHandLandmarks[i]`; the two arrays
are modelled as zipped, which agrees with the source whenever they have equal
length (always the case for tracker output). -/
structure Results where
  multiHandLandmarks : List (List Landmark)
  multiHandedness : List Handedness
  deriving DecidableEq, Repr

/-- Hand state produced from one detection: anchor is `landmarks[9]` (middle
finger MCP), velocity the one-frame difference against the stored hand. -/
def updateHandFromDetection (prev : HandPosition) (landmarks : List Landmark) : HandPosition :=
  let palmPoint := landmarks.getD 9 ⟨0, 0, 0⟩
  { x := palmPoint.x
    y := palmPoint.y
    vx := palmPoint.x - prev.x
    vy := palmPoint.y - prev.y
    isPresent := true }

/-- Side selected by a handedness label: the source tests `label === 'Left'`
and routes every other label to the right hand. -/
def labelSide (label : String) : Side :=
  if label = "Left" then Side.left else Side.right

/-- One loop iteration of `onResults`: route the detection to the slot named
by its label, overwriting whatever an earlier detection put there. -/
def onResultsStep (prev acc : Hands) (p : List Landmark × Handedness) : Hands :=
  match labelSide p.2.label with
  | Side.left => { acc with left := updateHandFromDetection prev.left p.1 }
  | Side.right => { acc with right := updateHandFromDetection prev.right p.1 }

/-- Mirror of `onResults` restricted to hand state: start from the previous
hands with presence cleared, then fold over ALL detections in source order,
each overwriting its side's slot; velocities are computed against `prev`
(the stored previous-frame hands), as `handsRef.current` is only reassigned
after the loop. -/
def onResultsHands (res : Results) (prev : Hands) : Hands :=
  let init : Hands :=
    { left := { prev.left with isPresent := false }
      right := { prev.right with isPresent := false } }
  (res.multiHandLandmarks.zip res.multiHandedness).foldl (onResultsStep prev) init

/-- Spec-worded variant of the hand-state update, for comparison with the
source: "only the first 2 detections are processed, detections beyond the
first 2 are ignored". -/
def onResultsHandsFirst2 (res : Results) (prev : Hands) : Hands :=
  onResultsHands
    { multiHandLandmarks := res.multiHandLandmarks.take 2
      multiHandedness := res.multiHandedness.take 2 } prev

/-- The last detection of the frame routed to side `s`, if any: the one whose
values survive the fold of `onResultsHands`. -/
def lastDetectionFor (res : Results) (s : Side) : Option (List Landmark) :=
  (((res.multiHandLandmarks.zip res.multiHandedness).filter
      (fun p => labelSide p.2.label = s)).getLast?).map Prod.fst

/-! Helper lemmas on the list-walking parts of the resolver. -/

/-- Stack layout of a run of held balls starting at stack index `k`. -/
def stackFrom (hand : HandPosition) : List Ball → ℕ → List Ball
  | [], _ => []
  | b :: bs, k => positionHeld hand k b :: stackFrom hand bs (k + 1)

/-! Concrete sample data used by witnesses and counterexamples. -/

/-- Sample ball held by the left hand. -/
def ballHeldLeft : Ball :=
  { id := 1, x := 0.5, y := 0.45, vx := 0, vy := 0, radius := BALL_RADIUS,
    color := "c0", isActive := true, heldBy := some Side.left }

/-- Sample free ball near the screen center. -/
def ballFree : Ball :=
  { id := 2, x := 0.5, y := 0.5, vx := 0, vy := 0, radius := BALL_RADIUS,
    color := "c1", isActive := true, heldBy := none }

/-- Sample hand moving up fast enough to throw. -/
def handUpFast : HandPosition :=
  { x := 0.5, y := 0.5, vx := 0, vy := -0.1, isPresent := true }

/-- Sample present hand moving slowly downward. -/
def handSlow : HandPosition :=
  { x := 0.5, y := 0.5, vx := 0.02, vy := 0.05, isPresent := true }

/-- Sample absent hand. -/
def handAway : HandPosition :=
  { x := 0.5, y := 0.5, vx := 0, vy := 0, isPresent := false }

/-- Deterministic random oracle for witnesses (jitter 0.5 makes the throw
jitter term vanish). -/
def rand0 : FrameRand :=
  { spawnId := 0, spawnX := 0.5, spawnVx := 0.5, spawnHue := 0,
    throwJitter := fun _ => 0.5, respawnX := fun _ => 0.5, respawnVx := fun _ => 0.5 }

/-- Sample state: one left-held ball, left hand flicking up, cooldown clear. -/
def stThrow : GameData :=
  { gameState := GameState.PLAYING, score := 0, targetBallCount := 1,
    balls := [ballHeldLeft], hands := { left := handUpFast, right := handAway },
    lastSpawnTime := 600, throwCooldowns := { left := 0, right := 0 } }

/-- Sample state: one left-held ball, left hand present and moving slowly. -/
def stHoldSlow : GameData :=
  { gameState := GameState.PLAYING, score := 0, targetBallCount := 1,
    balls := [ballHeldLeft], hands := { left := handSlow, right := handAway },
    lastSpawnTime := 600, throwCooldowns := { left := 0, right := 0 } }

/-- Sample ball integrated past the left wall. -/
def ballAtWall : Ball :=
  { id := 3, x := 0.01, y := 0.5, vx := -0.01, vy := 0, radius := BALL_RADIUS,
    color := "c2", isActive := true, heldBy := none }

/-- Sample free ball that has fallen below the floor line. -/
def ballFallen : Ball :=
  { id := 4, x := 0.5, y := 1.3, vx := 0, vy := 0.01, radius := BALL_RADIUS,
    color := "c3", isActive := true, heldBy := none }

/-- Sample Playing state with no balls whose last spawn was exactly 500 ms
before the frame at `now = 1000`. -/
def stBoundary : GameData :=
  { gameState := GameState.PLAYING, score := 0, targetBallCount := 1,
    balls := [], hands := { left := handAway, right := handAway },
    lastSpawnTime := 500, throwCooldowns := { left := 0, right := 0 } }

/-- Sample Playing state that passes the spawn gate at `now = 1000`. -/
def stSpawn : GameData :=
  { gameState := GameState.PLAYING, score := 0, targetBallCount := 3,
    balls := [], hands := { left := handAway, right := handAway },
    lastSpawnTime := 0, throwCooldowns := { left := 0, right := 0 } }

/-- Sample state: a left-held ball whose hand has lost tracking. -/
def stDropLoss : GameData :=
  { gameState := GameState.PLAYING, score := 0, targetBallCount := 1,
    balls := [ballHeldLeft], hands := { left := handAway, right := handAway },
    lastSpawnTime := 600, throwCooldowns := { left := 0, right := 0 } }

/-- Zero landmark. -/
def lmZ : Landmark := { x := 0, y := 0, z := 0 }

/-- Landmark at coordinate `(q, q)`. -/
def lmAt (q : ℚ) : Landmark := { x := q, y := q, z := 0 }

/-- Ten-point landmark list whose index 9 (palm anchor) sits at `(q, q)`. -/
def lms10 (q : ℚ) : List Landmark :=
  [lmZ, lmZ, lmZ, lmZ, lmZ, lmZ, lmZ, lmZ, lmZ, lmAt q]

/-- Previous-frame hands for the tracker samples. -/
def prevH : Hands := { left := handAway, right := handAway }

/-- Three-detection frame: Left, Right, then Left again. -/
def res3 : Results :=
  { multiHandLandmarks := [lms10 0.1, lms10 0.2, lms10 0.3]
    multiHandedness := [{ label := "Left", score := 1 }, { label := "Right", score := 1 },
      { label := "Left", score := 1 }] }

/-- Single-detection frame: one Left hand. -/
def res1 : Results :=
  { multiHandLandmarks := [lms10 0.4]
    multiHandedness := [{ label := "Left", score := 1 }] }

@[simp] lemma side_left_ne_right : (Side.left = Side.right) = False := by simp

@[simp] lemma side_right_ne_left : (Side.right = Side.left) = False := by simp

@[simp] lemma some_side_ne_none (s : Side) : ((some s : Option Side) = none) = False := by
  simp

@[simp] lemma none_ne_some_side (s : Side) : ((none : Option Side) = some s) = False := by
  simp

lemma throwLast_length (f : Ball → Ball) (s : Side) (balls : List Ball) :
    (throwLast f s balls).length = balls.length := by
  induction balls with
  | nil => rfl
  | cons b bs ih =>
    simp only [throwLast]
    split_ifs <;> simp [ih]

lemma throwLast_of_not_held (f : Ball → Ball) (s : Side) (balls : List Ball)
    (h : ∀ b ∈ balls, b.heldBy ≠ some s) :
    throwLast f s balls = balls := by
  induction balls with
  | nil => rfl
  | cons b bs ih =>
    have hb : ¬b.heldBy = some s := h b (List.mem_cons_self b bs)
    have htail : ∀ b2 ∈ bs, b2.heldBy ≠ some s :=
      fun b2 hb2 => h b2 (List.mem_cons_of_mem b hb2)
    simp only [throwLast]
    split_ifs with h1 <;> rw [ih htail]

lemma throwLast_decomp (f : Ball → Ball) (s : Side) (balls : List Ball)
    (h : ∃ b ∈ balls, b.heldBy = some s) :
    ∃ l₁ b l₂, balls = l₁ ++ b :: l₂ ∧ b.heldBy = some s ∧
      (∀ b' ∈ l₂, b'.heldBy ≠ some s) ∧
      throwLast f s balls = l₁ ++ f b :: l₂ := by
  induction balls with
  | nil => simp at h
  | cons b bs ih =>
    by_cases hbs : ∃ b2 ∈ bs, b2.heldBy = some s
    · obtain ⟨l₁, b', l₂, hdec, hheld, hlast, heq⟩ := ih hbs
      have hany : bs.any (fun b2 => b2.heldBy = some s) = true := by
        simp only [List.any_eq_true, decide_eq_true_eq]; exact hbs
      refine ⟨b :: l₁, b', l₂, by simp [hdec], hheld, hlast, ?_⟩
      simp only [throwLast, hany, if_true, heq, List.cons_append]
    · have hany : ¬bs.any (fun b2 => b2.heldBy = some s) = true := by
        simp only [List.any_eq_true, decide_eq_true_eq]; exact hbs
      have hb : b.heldBy = some s := by
        rcases h with ⟨b', hb', hh⟩
        rcases List.mem_cons.mp hb' with h1 | h2
        · exact h1 ▸ hh
        · exact absurd ⟨b', h2, hh⟩ hbs
      refine ⟨[], b, bs, rfl, hb, ?_, ?_⟩
      · intro b' hb' hh
        exact hbs ⟨b', hb', hh⟩
      · simp only [throwLast]
        rw [if_neg hany, if_pos hb]
        rfl

lemma repositionAux_length (hand : HandPosition) (s : Side) (balls : List Ball) (k : ℕ) :
    (repositionAux hand s balls k).length = balls.length := by
  induction balls generalizing k with
  | nil => rfl
  | cons b bs ih =>
    simp only [repositionAux]
    split_ifs <;> simp [ih]

lemma positionHeld_heldBy (hand : HandPosition) (k : ℕ) (b : Ball) :
    (positionHeld hand k b).heldBy = b.heldBy := rfl

lemma repositionAux_map_heldBy (hand : HandPosition) (s : Side) (balls : List Ball) (k : ℕ) :
    (repositionAux hand s balls k).map Ball.heldBy = balls.map Ball.heldBy := by
  induction balls generalizing k with
  | nil => rfl
  | cons b bs ih =>
    simp only [repositionAux]
    split_ifs with hb <;> simp [ih, positionHeld_heldBy]

lemma repositionAux_heldBy_velocity (hand : HandPosition) (s : Side) (balls : List Ball)
    (k : ℕ) (b' : Ball) (hmem : b' ∈ repositionAux hand s balls k)
    (hheld : b'.heldBy = some s) :
    b'.vx = hand.vx ∧ b'.vy = hand.vy ∧ b'.x = hand.x := by
  induction balls generalizing k with
  | nil => simp [repositionAux] at hmem
  | cons b bs ih =>
    simp only [repositionAux] at hmem
    split_ifs at hmem with hb
    · rcases List.mem_cons.mp hmem with h1 | h2
      · subst h1; exact ⟨rfl, rfl, rfl⟩
      · exact ih _ h2
    · rcases List.mem_cons.mp hmem with h1 | h2
      · exact absurd (h1 ▸ hheld) hb
      · exact ih _ h2

lemma stackFrom_get? (hand : HandPosition) (l : List Ball) (k i : ℕ) :
    (stackFrom hand l k).get? i = (l.get? i).map (positionHeld hand (k + i)) := by
  induction l generalizing k i with
  | nil => simp [stackFrom]
  | cons b bs ih =>
    cases i with
    | zero => simp [stackFrom]
    | succ n =>
      simp only [stackFrom, List.get?_cons_succ]
      rw [ih, show k + 1 + n = k + (n + 1) by omega]

lemma repositionAux_filter (hand : HandPosition) (s : Side) (balls : List Ball) (k : ℕ) :
    (repositionAux hand s balls k).filter (fun b => b.heldBy = some s) =
      stackFrom hand (balls.filter (fun b => b.heldBy = some s)) k := by
  induction balls generalizing k with
  | nil => rfl
  | cons b bs ih =>
    simp only [repositionAux]
    split_ifs with hb
    · have h1 : (positionHeld hand k b).heldBy = some s := by
        rw [positionHeld_heldBy]; exact hb
      rw [List.filter_cons_of_pos (by simpa using h1),
        List.filter_cons_of_pos (by simpa using hb)]
      simp only [stackFrom]
      rw [ih]
    · rw [List.filter_cons_of_neg (by simpa using hb),
        List.filter_cons_of_neg (by simpa using hb)]
      exact ih k

/-! Branch characterizations of `processHand`. -/

lemma processHand_throw (now : ℤ) (jit : ℚ) (s : Side) (st : GameData)
    (hp : (st.hands.get s).isPresent = true)
    (hh : 0 < (st.balls.filter fun b => b.heldBy = some s).length)
    (hg : throwGate (st.hands.get s) (st.throwCooldowns.get s) now) :
    processHand now jit s st =
      { st with
        balls := repositionAux (st.hands.get s) s
          (throwLast (thrownBall (st.hands.get s).vx (st.hands.get s).vy jit) s st.balls) 0
        throwCooldowns := st.throwCooldowns.set s now
        score := st.score + 10 } := by
  unfold processHand
  rw [if_pos ⟨hp, hh⟩, if_pos hg]

lemma processHand_noThrow (now : ℤ) (jit : ℚ) (s : Side) (st : GameData)
    (hp : (st.hands.get s).isPresent = true)
    (hh : 0 < (st.balls.filter fun b => b.heldBy = some s).length)
    (hg : ¬throwGate (st.hands.get s) (st.throwCooldowns.get s) now) :
    processHand now jit s st =
      { st with balls := repositionAux (st.hands.get s) s st.balls 0 } := by
  unfold processHand
  rw [if_pos ⟨hp, hh⟩, if_neg hg]

lemma processHand_drop (now : ℤ) (jit : ℚ) (s : Side) (st : GameData)
    (hp : ¬(st.hands.get s).isPresent = true)
    (hh : 0 < (st.balls.filter fun b => b.heldBy = some s).length) :
    processHand now jit s st = { st with balls := st.balls.map (dropBall s) } := by
  unfold processHand
  rw [if_neg (fun hc => hp hc.1), if_pos ⟨hp, hh⟩]

lemma processHand_noHeld (now : ℤ) (jit : ℚ) (s : Side) (st : GameData)
    (hh : ¬0 < (st.balls.filter fun b => b.heldBy = some s).length) :
    processHand now jit s st = st := by
  unfold processHand
  rw [if_neg (fun hc => hh hc.2), if_neg (fun hc => hh hc.2)]

/-- C1: while Playing, per hand, a throw occurs iff the hand is present, holds
a ball, moves up faster than `THROW_THRESHOLD` and its cooldown of
`THROW_COOLDOWN` ms has elapsed; it releases exactly the most recently added
held ball of that hand (the last held ball in registry order, i.e. top of
stack), sets that hand's last-throw timestamp to `now` and adds exactly 10 to
the score; otherwise the score and the cooldown timestamps are untouched and
(when the hand is present) no ball changes its held state. -/
theorem throw_evaluation_iff (now : ℤ) (jit : ℚ) (s : Side) (st : GameData) :
    (((st.hands.get s).isPresent = true ∧
        (st.balls.filter fun b => b.heldBy = some s) ≠ [] ∧
        (st.hands.get s).vy < THROW_THRESHOLD ∧
        now - st.throwCooldowns.get s > THROW_COOLDOWN) →
      ∃ l₁ b l₂, st.balls = l₁ ++ b :: l₂ ∧ b.heldBy = some s ∧
        (∀ b' ∈ l₂, b'.heldBy ≠ some s) ∧
        (processHand now jit s st).balls.map Ball.heldBy =
          l₁.map Ball.heldBy ++ none :: l₂.map Ball.heldBy ∧
        (processHand now jit s st).score = st.score + 10 ∧
        (processHand now jit s st).throwCooldowns.get s = now) ∧
    (¬((st.hands.get s).isPresent = true ∧
        (st.balls.filter fun b => b.heldBy = some s) ≠ [] ∧
        (st.hands.get s).vy < THROW_THRESHOLD ∧
        now - st.throwCooldowns.get s > THROW_COOLDOWN) →
      (processHand now jit s st).score = st.score ∧
      (processHand now jit s st).throwCooldowns = st.throwCooldowns ∧
      ((st.hands.get s).isPresent = true →
        (processHand now jit s st).balls.map Ball.heldBy = st.balls.map Ball.heldBy)) := by
  constructor
  · rintro ⟨hp, hne, hvy, hcd⟩
    have hh : 0 < (st.balls.filter fun b => b.heldBy = some s).length :=
      List.length_pos.mpr hne
    have hmem : ∃ b ∈ st.balls, b.heldBy = some s := by
      rcases List.exists_mem_of_length_pos hh with ⟨b, hb⟩
      have := List.mem_filter.mp hb
      exact ⟨b, this.1, by simpa using this.2⟩
    obtain ⟨l₁, b, l₂, hdec, hheld, hlast, heq⟩ :=
      throwLast_decomp (thrownBall (st.hands.get s).vx (st.hands.get s).vy jit) s
        st.balls hmem
    refine ⟨l₁, b, l₂, hdec, hheld, hlast, ?_, ?_, ?_⟩
    · rw [processHand_throw now jit s st hp hh ⟨hvy, hcd⟩]
      show (repositionAux (st.hands.get s) s
          (throwLast (thrownBall (st.hands.get s).vx (st.hands.get s).vy jit) s st.balls)
          0).map Ball.heldBy = _
      rw [repositionAux_map_heldBy, heq]
      simp [thrownBall]
    · rw [processHand_throw now jit s st hp hh ⟨hvy, hcd⟩]
    · rw [processHand_throw now jit s st hp hh ⟨hvy, hcd⟩]
      cases s <;> rfl
  · intro hneg
    by_cases hh : 0 < (st.balls.filter fun b => b.heldBy = some s).length
    · have hne : (st.balls.filter fun b => b.heldBy = some s) ≠ [] :=
        List.length_pos.mp hh
      by_cases hp : (st.hands.get s).isPresent = true
      · have hg : ¬throwGate (st.hands.get s) (st.throwCooldowns.get s) now := by
          intro hg
          exact hneg ⟨hp, hne, hg.1, hg.2⟩
        rw [processHand_noThrow now jit s st hp hh hg]
        exact ⟨rfl, rfl, fun _ => repositionAux_map_heldBy _ _ _ _⟩
      · rw [processHand_drop now jit s st hp hh]
        exact ⟨rfl, rfl, fun hc => absurd hc hp⟩
    · rw [processHand_noHeld now jit s st hh]
      exact ⟨rfl, rfl, fun _ => rfl⟩

/-- Witness for C1 at a concrete throwing state. -/
theorem throw_evaluation_iff_witness :
    (processHand 1000 0.5 Side.left stThrow).score = stThrow.score + 10 ∧
    (processHand 1000 0.5 Side.left stThrow).throwCooldowns.get Side.left = 1000 := by
  obtain ⟨pos, _⟩ := throw_evaluation_iff 1000 0.5 Side.left stThrow
  obtain ⟨l₁, b, l₂, _, _, _, _, hs, hc⟩ := pos (by
    norm_num [stThrow, Hands.get, Cooldowns.get, handUpFast, ballHeldLeft,
      THROW_THRESHOLD, THROW_COOLDOWN])
  exact ⟨hs, hc⟩

/-! Preservation lemmas: one hand's processing does not disturb the other
hand's stack, and processing never changes the registry size. -/

lemma some_side_ne (s s' : Side) (hne : s ≠ s') : (some s' : Option Side) ≠ some s :=
  fun hc => hne (Option.some_inj.mp hc).symm

lemma filter_map_dropBall (s s' : Side) (hne : s ≠ s') (l : List Ball) :
    (l.map (dropBall s')).filter (fun b => b.heldBy = some s) =
      l.filter (fun b => b.heldBy = some s) := by
  induction l with
  | nil => rfl
  | cons b bs ih =>
    simp only [List.map_cons]
    by_cases hb : b.heldBy = some s'
    · have h1 : dropBall s' b = { b with heldBy := none } := by
        unfold dropBall; rw [if_pos hb]
      have h2 : ¬b.heldBy = some s := by
        rw [hb]; exact some_side_ne s s' hne
      rw [h1, List.filter_cons_of_neg (by simp), List.filter_cons_of_neg (by simpa using h2)]
      exact ih
    · have h1 : dropBall s' b = b := by unfold dropBall; rw [if_neg hb]
      rw [h1, List.filter_cons, List.filter_cons]
      rw [ih]

lemma filter_throwLast_other (f : Ball → Ball) (hf : ∀ b, (f b).heldBy = none)
    (s s' : Side) (hne : s ≠ s') (l : List Ball) :
    (throwLast f s' l).filter (fun b => b.heldBy = some s) =
      l.filter (fun b => b.heldBy = some s) := by
  induction l with
  | nil => rfl
  | cons b bs ih =>
    simp only [throwLast]
    split_ifs with h1 h2
    · rw [List.filter_cons, List.filter_cons, ih]
    · have hbs : ¬b.heldBy = some s := by
        rw [h2]; exact some_side_ne s s' hne
      rw [List.filter_cons_of_neg (by simp [hf b]), List.filter_cons_of_neg (by simpa using hbs)]
    · rw [List.filter_cons, List.filter_cons, ih]

lemma filter_repositionAux_other (hand : HandPosition) (s s' : Side) (hne : s ≠ s')
    (l : List Ball) (k : ℕ) :
    (repositionAux hand s' l k).filter (fun b => b.heldBy = some s) =
      l.filter (fun b => b.heldBy = some s) := by
  induction l generalizing k with
  | nil => rfl
  | cons b bs ih =>
    simp only [repositionAux]
    split_ifs with hb
    · have h1 : (positionHeld hand k b).heldBy = some s' := by
        rw [positionHeld_heldBy]; exact hb
      have h2 : ¬b.heldBy = some s := by
        rw [hb]; exact some_side_ne s s' hne
      rw [List.filter_cons_of_neg (by simp [h1]; exact fun hc => hne hc.symm),
        List.filter_cons_of_neg (by simpa using h2)]
      exact ih (k + 1)
    · rw [List.filter_cons, List.filter_cons, ih k]

lemma processHand_hands (now : ℤ) (jit : ℚ) (s : Side) (st : GameData) :
    (processHand now jit s st).hands = st.hands := by
  simp only [processHand]
  split_ifs <;> rfl

lemma processHand_gameState (now : ℤ) (jit : ℚ) (s : Side) (st : GameData) :
    (processHand now jit s st).gameState = st.gameState := by
  simp only [processHand]
  split_ifs <;> rfl

lemma processHand_length (now : ℤ) (jit : ℚ) (s : Side) (st : GameData) :
    (processHand now jit s st).balls.length = st.balls.length := by
  simp only [processHand]
  split_ifs <;>
    simp [repositionAux_length, throwLast_length]

lemma processHand_filter_other (now : ℤ) (jit : ℚ) (s s' : Side) (hne : s ≠ s')
    (st : GameData) :
    (processHand now jit s' st).balls.filter (fun b => b.heldBy = some s) =
      st.balls.filter (fun b => b.heldBy = some s) := by
  by_cases hh : 0 < (st.balls.filter fun b => b.heldBy = some s').length
  · by_cases hp : (st.hands.get s').isPresent = true
    · by_cases hg : throwGate (st.hands.get s') (st.throwCooldowns.get s') now
      · rw [processHand_throw now jit s' st hp hh hg]
        show ((repositionAux _ s' _ 0).filter _) = _
        rw [filter_repositionAux_other _ s s' hne,
          filter_throwLast_other _ (fun b => rfl) s s' hne]
      · rw [processHand_noThrow now jit s' st hp hh hg]
        exact filter_repositionAux_other _ s s' hne _ 0
    · rw [processHand_drop now jit s' st hp hh]
      exact filter_map_dropBall s s' hne _
  · rw [processHand_noHeld now jit s' st hh]

/-- C2 counterexample: after a full Playing frame the ball is still held by
the left hand yet its velocity is the hand's velocity (0.02, 0.05), not
(0, 0) — held-ball velocity is not force-zeroed while held. -/
theorem held_velocity_zero_cex :
    ((updateGame 1000 rand0 stHoldSlow).balls.getD 0 ballFree).heldBy = some Side.left ∧
    ((updateGame 1000 rand0 stHoldSlow).balls.getD 0 ballFree).vy = 0.05 ∧
    ((updateGame 1000 rand0 stHoldSlow).balls.getD 0 ballFree).vy ≠ 0 := by
  norm_num [updateGame, spawnStep, spawnGate, processHand, throwGate, repositionAux,
    positionHeld, physicsStep, stHoldSlow, handSlow, handAway, ballHeldLeft,
    Hands.get, Cooldowns.get, THROW_THRESHOLD, THROW_COOLDOWN, dropBall,
    List.getD, MAX_STACK_HEIGHT]

lemma filter_eq_nil_of_not_pos (s : Side) (l : List Ball)
    (hh : ¬0 < (l.filter fun b => b.heldBy = some s).length) :
    l.filter (fun b => b.heldBy = some s) = [] :=
  List.length_eq_zero.mp (by omega)

/-- C2 (amended): a held ball's velocity is not force-zeroed while held; it is
set to (0, 0) at the moment of catch, and on every later frame the resolver
sets it to the holding hand's velocity (zero velocity relative to the hand),
which is nonzero whenever the hand moves. -/
theorem held_velocity_tracks_hand (now : ℤ) (jit : ℚ) (s : Side) (st : GameData)
    (hp : (st.hands.get s).isPresent = true) :
    (∀ b' ∈ (processHand now jit s st).balls, b'.heldBy = some s →
      b'.vx = (st.hands.get s).vx ∧ b'.vy = (st.hands.get s).vy) ∧
    (∀ (b : Ball) (hand : HandPosition) (hn : Side),
      (checkHandCatch b hand hn).heldBy ≠ b.heldBy →
      (checkHandCatch b hand hn).vx = 0 ∧ (checkHandCatch b hand hn).vy = 0) := by
  constructor
  · intro b' hmem hheld
    by_cases hh : 0 < (st.balls.filter fun b => b.heldBy = some s).length
    · by_cases hg : throwGate (st.hands.get s) (st.throwCooldowns.get s) now
      · rw [processHand_throw now jit s st hp hh hg] at hmem
        exact ⟨(repositionAux_heldBy_velocity _ s _ 0 b' hmem hheld).1,
          (repositionAux_heldBy_velocity _ s _ 0 b' hmem hheld).2.1⟩
      · rw [processHand_noThrow now jit s st hp hh hg] at hmem
        exact ⟨(repositionAux_heldBy_velocity _ s _ 0 b' hmem hheld).1,
          (repositionAux_heldBy_velocity _ s _ 0 b' hmem hheld).2.1⟩
    · rw [processHand_noHeld now jit s st hh] at hmem
      have : b' ∈ st.balls.filter (fun b => b.heldBy = some s) :=
        List.mem_filter.mpr ⟨hmem, by simpa using hheld⟩
      rw [filter_eq_nil_of_not_pos s st.balls hh] at this
      simp at this
  · intro b hand hn hne
    unfold checkHandCatch at hne ⊢
    split_ifs at hne ⊢ with h1 h2
    · exact absurd rfl hne
    · exact ⟨rfl, rfl⟩
    · exact absurd rfl hne

/-- Witness for the amended C2 at a concrete held-and-moving state. -/
theorem held_velocity_tracks_hand_witness :
    (positionHeld handSlow 0 ballHeldLeft).vx = (stHoldSlow.hands.get Side.left).vx ∧
    (positionHeld handSlow 0 ballHeldLeft).vy = (stHoldSlow.hands.get Side.left).vy := by
  have h := (held_velocity_tracks_hand 1000 0.5 Side.left stHoldSlow
    (by norm_num [stHoldSlow, Hands.get, handSlow])).1
  refine h (positionHeld handSlow 0 ballHeldLeft) ?_ ?_
  · norm_num [processHand, throwGate, repositionAux, stHoldSlow, handSlow, handAway,
      ballHeldLeft, Hands.get, Cooldowns.get, THROW_THRESHOLD, THROW_COOLDOWN, positionHeld]
  · norm_num [positionHeld, ballHeldLeft]

lemma processHand_filter_stack (now : ℤ) (jit : ℚ) (s : Side) (st : GameData)
    (hp : (st.hands.get s).isPresent = true) :
    ∃ l0, (processHand now jit s st).balls.filter (fun b => b.heldBy = some s) =
      stackFrom (st.hands.get s) l0 0 := by
  by_cases hh : 0 < (st.balls.filter fun b => b.heldBy = some s).length
  · by_cases hg : throwGate (st.hands.get s) (st.throwCooldowns.get s) now
    · rw [processHand_throw now jit s st hp hh hg]
      exact ⟨_, repositionAux_filter _ _ _ _⟩
    · rw [processHand_noThrow now jit s st hp hh hg]
      exact ⟨_, repositionAux_filter _ _ _ _⟩
  · rw [processHand_noHeld now jit s st hh]
    refine ⟨[], ?_⟩
    rw [filter_eq_nil_of_not_pos s st.balls hh]
    rfl

/-- C3: after the resolver step (both hands, left then right), the ball at
stack index `i` of a present hand `s` sits exactly at the hand's x and at the
hand's y minus the base offset 0.05 minus `min i MAX_STACK_HEIGHT` slots of
`radius * 1.2` — the fixed per-slot offset of its stack index, capped, with
no drift. -/
theorem held_stack_offset (now : ℤ) (jl jr : ℚ) (s : Side) (st : GameData)
    (hp : (st.hands.get s).isPresent = true) :
    ∀ i b', ((processHand now jr Side.right (processHand now jl Side.left st)).balls.filter
        (fun b => b.heldBy = some s)).get? i = some b' →
      b'.x = (st.hands.get s).x ∧
      b'.y = (st.hands.get s).y - 0.05 -
        (min i MAX_STACK_HEIGHT : ℚ) * (b'.radius * 1.2) := by
  intro i b' hget
  cases s with
  | left =>
    obtain ⟨l0, h1⟩ := processHand_filter_stack now jl Side.left st hp
    rw [processHand_filter_other now jr Side.left Side.right
      (fun hc => Side.noConfusion hc) _, h1, stackFrom_get?] at hget
    cases hl : l0.get? i with
    | none => rw [hl] at hget; simp at hget
    | some b0 =>
      rw [hl] at hget
      simp only [Option.map_some'] at hget
      obtain rfl := Option.some_inj.mp hget
      refine ⟨rfl, ?_⟩
      simp [positionHeld]
  | right =>
    have hands1 : (processHand now jl Side.left st).hands = st.hands :=
      processHand_hands now jl Side.left st
    obtain ⟨l0, h1⟩ := processHand_filter_stack now jr Side.right
      (processHand now jl Side.left st) (by rw [hands1]; exact hp)
    rw [h1, stackFrom_get?] at hget
    cases hl : l0.get? i with
    | none => rw [hl] at hget; simp at hget
    | some b0 =>
      rw [hl] at hget
      simp only [Option.map_some'] at hget
      obtain rfl := Option.some_inj.mp hget
      rw [hands1]
      refine ⟨rfl, ?_⟩
      simp [positionHeld]

/-- Witness for C3 at a concrete one-ball stack. -/
theorem held_stack_offset_witness :
    (positionHeld handSlow 0 ballHeldLeft).x = (stHoldSlow.hands.get Side.left).x ∧
    (positionHeld handSlow 0 ballHeldLeft).y = (stHoldSlow.hands.get Side.left).y - 0.05 -
      (min 0 MAX_STACK_HEIGHT : ℚ) * ((positionHeld handSlow 0 ballHeldLeft).radius * 1.2) := by
  refine held_stack_offset 1000 0.5 0.5 Side.left stHoldSlow
    (by norm_num [stHoldSlow, Hands.get, handSlow]) 0 (positionHeld handSlow 0 ballHeldLeft) ?_
  norm_num [processHand, throwGate, repositionAux, stHoldSlow, handSlow, handAway,
    ballHeldLeft, Hands.get, Cooldowns.get, THROW_THRESHOLD, THROW_COOLDOWN, positionHeld,
    dropBall]

/-- C4: a free ball is caught by a present hand exactly when the elliptical
distance (vertical delta scaled by 0.75) is below `ball.radius + HAND_RADIUS/2`
and the ball's vertical velocity exceeds -0.01; the catch zeroes the velocity
and sets `heldBy`; a held ball (including one just caught by the left hand) is
excluded from further checks, so at most one hand holds it per frame. -/
theorem catch_iff (b : Ball) :
    (∀ (hand : HandPosition) (hn : Side), b.heldBy = none → hand.isPresent = true →
      (catchCond b hand →
        checkHandCatch b hand hn = { b with heldBy := some hn, vx := 0, vy := 0 }) ∧
      (¬catchCond b hand → checkHandCatch b hand hn = b)) ∧
    (∀ (hand : HandPosition) (hn : Side), b.heldBy ≠ none ∨ hand.isPresent = false →
      checkHandCatch b hand hn = b) ∧
    (∀ (hl hr : HandPosition), b.heldBy = none → hl.isPresent = true → catchCond b hl →
      (checkHandCatch (checkHandCatch b hl Side.left) hr Side.right).heldBy =
        some Side.left) := by
  refine ⟨?_, ?_, ?_⟩
  · intro hand hn hfree hp
    constructor
    · intro hc
      unfold checkHandCatch
      rw [if_neg (by simp [hfree, hp]), if_pos hc]
    · intro hc
      unfold checkHandCatch
      rw [if_neg (by simp [hfree, hp]), if_neg hc]
  · intro hand hn hcase
    unfold checkHandCatch
    rcases hcase with h | h
    · rw [if_pos (Or.inr h)]
    · rw [if_pos (Or.inl (by simp [h]))]
  · intro hl hr hfree hp hc
    have h1 : checkHandCatch b hl Side.left = { b with heldBy := some Side.left, vx := 0, vy := 0 } := by
      unfold checkHandCatch
      rw [if_neg (by simp [hfree, hp]), if_pos hc]
    rw [h1]
    unfold checkHandCatch
    rw [if_pos (Or.inr (by simp))]

/-- Witness for C4: a stationary free ball at a present hand's anchor is
caught and zeroed. -/
theorem catch_iff_witness :
    checkHandCatch ballFree handSlow Side.left =
      { ballFree with heldBy := some Side.left, vx := 0, vy := 0 } := by
  refine ((catch_iff ballFree).1 handSlow Side.left rfl rfl).1 ?_
  norm_num [catchCond, ballFree, handSlow, HAND_RADIUS, BALL_RADIUS]

/-- C5: when the integrated x of a free ball leaves `[radius, 1 - radius]`,
its vx is multiplied by -0.8 and x is clamped back to the interval; for
`radius ≤ 0.5` the post-bounce x lies in `[radius, 1 - radius]`. -/
theorem wall_bounce_clamp (b : Ball)
    (h : (integrateBall b).x < b.radius ∨ (integrateBall b).x > 1 - b.radius) :
    (wallBounce (integrateBall b)).vx = b.vx * (-0.8) ∧
    (wallBounce (integrateBall b)).x =
      max b.radius (min (1 - b.radius) (integrateBall b).x) ∧
    (b.radius ≤ 0.5 →
      b.radius ≤ (wallBounce (integrateBall b)).x ∧
      (wallBounce (integrateBall b)).x ≤ 1 - b.radius) := by
  have hcond : (integrateBall b).x < (integrateBall b).radius ∨
      (integrateBall b).x > 1 - (integrateBall b).radius := h
  unfold wallBounce
  rw [if_pos hcond]
  refine ⟨rfl, rfl, fun hr => ⟨le_max_left _ _, ?_⟩⟩
  have h2 : b.radius ≤ 1 - b.radius := by linarith
  exact max_le h2 (min_le_left _ _)

/-- Witness for C5: a slow ball drifting past the left wall. -/
theorem wall_bounce_clamp_witness :
    (wallBounce (integrateBall ballAtWall)).vx = ballAtWall.vx * (-0.8) ∧
    (wallBounce (integrateBall ballAtWall)).x =
      max ballAtWall.radius (min (1 - ballAtWall.radius) (integrateBall ballAtWall).x) ∧
    (ballAtWall.radius ≤ 0.5 →
      ballAtWall.radius ≤ (wallBounce (integrateBall ballAtWall)).x ∧
      (wallBounce (integrateBall ballAtWall)).x ≤ 1 - ballAtWall.radius) :=
  wall_bounce_clamp ballAtWall
    (Or.inl (by norm_num [integrateBall, ballAtWall, BALL_RADIUS, GRAVITY]))

lemma wallBounce_y (b : Ball) : (wallBounce b).y = b.y := by
  unfold wallBounce; split_ifs <;> rfl

lemma wallBounce_vy (b : Ball) : (wallBounce b).vy = b.vy := by
  unfold wallBounce; split_ifs <;> rfl

lemma wallBounce_heldBy (b : Ball) : (wallBounce b).heldBy = b.heldBy := by
  unfold wallBounce; split_ifs <;> rfl

lemma checkHandCatch_y (b : Ball) (hand : HandPosition) (hn : Side) :
    (checkHandCatch b hand hn).y = b.y := by
  unfold checkHandCatch; split_ifs <;> rfl

lemma checkHandCatch_of_vy (b : Ball) (hand : HandPosition) (hn : Side)
    (h : ¬b.vy > -0.01) : checkHandCatch b hand hn = b := by
  unfold checkHandCatch
  split_ifs with h1 h2
  · rfl
  · exact absurd h2.2 h
  · rfl

lemma spawnStep_length (now : ℤ) (rnd : FrameRand) (st : GameData) :
    (spawnStep now rnd st).balls.length = st.balls.length ∨
      (spawnStep now rnd st).balls.length = st.balls.length + 1 := by
  unfold spawnStep
  split_ifs
  · right; simp
  · left; rfl

lemma updateGame_length_playing (now : ℤ) (rnd : FrameRand) (st : GameData)
    (hplay : st.gameState = GameState.PLAYING) :
    (updateGame now rnd st).balls.length = (spawnStep now rnd st).balls.length := by
  simp only [updateGame]
  rw [if_neg (by simp [hplay])]
  simp only [List.length_mapIdx]
  rw [processHand_length, processHand_length]

lemma updateGame_length_mono (now : ℤ) (rnd : FrameRand) (st : GameData) :
    st.balls.length ≤ (updateGame now rnd st).balls.length := by
  by_cases hplay : st.gameState = GameState.PLAYING
  · rw [updateGame_length_playing now rnd st hplay]
    rcases spawnStep_length now rnd st with h | h <;> omega
  · unfold updateGame
    rw [if_pos (by simpa using hplay)]

/-- C6: a free ball whose integrated y exceeds 1.2 is respawned in the same
frame's physics pass: its y becomes -0.2 (above the visible area, i.e. < 0),
`heldBy` becomes none, and the registry size never decreases across a frame
(respawn repositions, never removes). -/
theorem respawn_floor (rnd : FrameRand) (hands : Hands) (i : ℕ) (b : Ball)
    (hfree : b.heldBy = none) (hy : (integrateBall b).y > 1.2) :
    (physicsStep rnd hands i b).y = -0.2 ∧
    (physicsStep rnd hands i b).y < 0 ∧
    (physicsStep rnd hands i b).heldBy = none ∧
    ∀ (now : ℤ) (st : GameData), st.balls.length ≤ (updateGame now rnd st).balls.length := by
  have hstep : physicsStep rnd hands i b =
      respawnBall (rnd.respawnX i) (rnd.respawnVx i)
        (checkHandCatch
          (checkHandCatch (wallBounce (integrateBall b)) hands.left Side.left)
          hands.right Side.right) := by
    unfold physicsStep
    rw [if_neg (by simp [hfree]), if_pos]
    rw [checkHandCatch_y, checkHandCatch_y, wallBounce_y]
    exact hy
  rw [hstep]
  refine ⟨rfl, by norm_num [respawnBall], rfl, fun now st => updateGame_length_mono now rnd st⟩

/-- Witness for C6 at a concrete fallen ball. -/
theorem respawn_floor_witness :
    (physicsStep rand0 { left := handAway, right := handAway } 0 ballFallen).y = -0.2 ∧
    (physicsStep rand0 { left := handAway, right := handAway } 0 ballFallen).y < 0 ∧
    (physicsStep rand0 { left := handAway, right := handAway } 0 ballFallen).heldBy = none ∧
    ∀ (now : ℤ) (st : GameData), st.balls.length ≤ (updateGame now rand0 st).balls.length :=
  respawn_floor rand0 { left := handAway, right := handAway } 0 ballFallen rfl
    (by norm_num [integrateBall, ballFallen, GRAVITY])

/-- C7 counterexample: with the live count below target and exactly 500 ms
elapsed since the last spawn ("at least 500 ms" holds), the frame spawns
nothing — the gate is strict (`now - lastSpawnTime > 500`). -/
theorem spawn_at_500_cex :
    stBoundary.balls.length < stBoundary.targetBallCount ∧
    (1000 : ℤ) - stBoundary.lastSpawnTime = 500 ∧
    (updateGame 1000 rand0 stBoundary).balls.length = stBoundary.balls.length := by
  refine ⟨by norm_num [stBoundary], by norm_num [stBoundary], ?_⟩
  rw [updateGame_length_playing 1000 rand0 stBoundary rfl]
  unfold spawnStep
  rw [if_neg]
  intro hc
  have := hc.2
  norm_num [stBoundary] at this

/-- C7 (amended): while Playing a ball is added exactly when the live count is
below the target and strictly more than 500 ms elapsed since the last spawn;
the spawned ball is appended with y = -0.1 < 0, zero vy, `heldBy = none`,
x = 0.2 + rand * 0.6 in the mid-band and a small random vx; at most one ball
is spawned per frame. -/
theorem spawn_scheduler (now : ℤ) (rnd : FrameRand) (st : GameData) :
    (spawnGate now st →
      spawnStep now rnd st =
        { st with balls := st.balls ++ [spawnBall now rnd], lastSpawnTime := now } ∧
      (spawnStep now rnd st).balls.length = st.balls.length + 1 ∧
      (spawnBall now rnd).y = -0.1 ∧ (spawnBall now rnd).y < 0 ∧
      (spawnBall now rnd).vy = 0 ∧ (spawnBall now rnd).heldBy = none ∧
      (0 ≤ rnd.spawnX → rnd.spawnX < 1 →
        0.2 ≤ (spawnBall now rnd).x ∧ (spawnBall now rnd).x ≤ 0.8) ∧
      (0 ≤ rnd.spawnVx → rnd.spawnVx < 1 →
        -0.0025 ≤ (spawnBall now rnd).vx ∧ (spawnBall now rnd).vx ≤ 0.0025)) ∧
    (¬spawnGate now st → spawnStep now rnd st = st) ∧
    (st.gameState = GameState.PLAYING →
      (updateGame now rnd st).balls.length = (spawnStep now rnd st).balls.length) := by
  refine ⟨?_, ?_, fun hplay => updateGame_length_playing now rnd st hplay⟩
  · intro hg
    refine ⟨by unfold spawnStep; rw [if_pos hg], ?_, rfl, by norm_num [spawnBall], rfl, rfl,
      ?_, ?_⟩
    · unfold spawnStep
      rw [if_pos hg]
      simp
    · intro h0 h1
      constructor
      · show (0.2 : ℚ) ≤ 0.2 + rnd.spawnX * 0.6
        nlinarith
      · show (0.2 : ℚ) + rnd.spawnX * 0.6 ≤ 0.8
        nlinarith
    · intro h0 h1
      constructor
      · show (-0.0025 : ℚ) ≤ (rnd.spawnVx - 0.5) * 0.005
        nlinarith
      · show (rnd.spawnVx - 0.5) * 0.005 ≤ 0.0025
        nlinarith
  · intro hg
    unfold spawnStep
    rw [if_neg hg]

/-- Witness for the amended C7 at a concrete passing state. -/
theorem spawn_scheduler_witness :
    spawnStep 1000 rand0 stSpawn =
      { stSpawn with
        balls := stSpawn.balls ++ [spawnBall 1000 rand0]
        lastSpawnTime := 1000 } ∧
    (spawnStep 1000 rand0 stSpawn).balls.length = stSpawn.balls.length + 1 := by
  have h := (spawn_scheduler 1000 rand0 stSpawn).1
    (by constructor <;> norm_num [stSpawn])
  exact ⟨h.1, h.2.1⟩

lemma map_dropBall_of_no_held (s : Side) (l : List Ball)
    (h : ∀ b ∈ l, b.heldBy ≠ some s) : l.map (dropBall s) = l := by
  induction l with
  | nil => rfl
  | cons b bs ih =>
    have hb : dropBall s b = b := by
      unfold dropBall
      rw [if_neg (h b (List.mem_cons_self b bs))]
    simp only [List.map_cons, hb]
    rw [ih fun b2 hb2 => h b2 (List.mem_cons_of_mem b hb2)]

/-- C9: when a hand is absent this frame, every ball it held is released
unconditionally (no cooldown or velocity gate): the resolver maps `dropBall`
over the registry, which clears `heldBy` of that hand's balls and leaves
position and velocity (and all other balls) untouched; score and cooldowns
are unchanged. -/
theorem drop_on_loss (now : ℤ) (jit : ℚ) (s : Side) (st : GameData)
    (hp : (st.hands.get s).isPresent = false) :
    (processHand now jit s st).balls = st.balls.map (dropBall s) ∧
    (processHand now jit s st).score = st.score ∧
    (processHand now jit s st).throwCooldowns = st.throwCooldowns ∧
    ∀ b : Ball,
      (b.heldBy = some s → (dropBall s b).heldBy = none) ∧
      (dropBall s b).vx = b.vx ∧ (dropBall s b).vy = b.vy ∧
      (dropBall s b).x = b.x ∧ (dropBall s b).y = b.y ∧
      (b.heldBy ≠ some s → dropBall s b = b) := by
  have hp' : ¬(st.hands.get s).isPresent = true := by simp [hp]
  have hfacts : ∀ b : Ball,
      (b.heldBy = some s → (dropBall s b).heldBy = none) ∧
      (dropBall s b).vx = b.vx ∧ (dropBall s b).vy = b.vy ∧
      (dropBall s b).x = b.x ∧ (dropBall s b).y = b.y ∧
      (b.heldBy ≠ some s → dropBall s b = b) := by
    intro b
    unfold dropBall
    split_ifs with hb
    · exact ⟨fun _ => rfl, rfl, rfl, rfl, rfl, fun hc => absurd hb hc⟩
    · exact ⟨fun hc => absurd hc hb, rfl, rfl, rfl, rfl, fun _ => rfl⟩
  by_cases hh : 0 < (st.balls.filter fun b => b.heldBy = some s).length
  · rw [processHand_drop now jit s st hp' hh]
    exact ⟨rfl, rfl, rfl, hfacts⟩
  · rw [processHand_noHeld now jit s st hh]
    refine ⟨?_, rfl, rfl, hfacts⟩
    refine (map_dropBall_of_no_held s st.balls ?_).symm
    intro b hmem hheld
    have : b ∈ st.balls.filter (fun b => b.heldBy = some s) :=
      List.mem_filter.mpr ⟨hmem, by simpa using hheld⟩
    rw [filter_eq_nil_of_not_pos s st.balls hh] at this
    simp at this

/-- Witness for C9 at a concrete lost-hand state. -/
theorem drop_on_loss_witness :
    (processHand 1000 0.5 Side.left stDropLoss).balls =
      stDropLoss.balls.map (dropBall Side.left) ∧
    (dropBall Side.left ballHeldLeft).vy = ballHeldLeft.vy ∧
    (dropBall Side.left ballHeldLeft).heldBy = none := by
  have h := drop_on_loss 1000 0.5 Side.left stDropLoss rfl
  exact ⟨h.1, (h.2.2.2 ballHeldLeft).2.2.1, (h.2.2.2 ballHeldLeft).1 rfl⟩

/-- C10: a ball released by a throw (hand moving up faster than
`THROW_THRESHOLD`) has, after the same frame's gravity step, vertical velocity
`hand.vy * 0.25 - 0.005 + GRAVITY < -0.01`, so the catch gate `vy > -0.01`
fails for it at both hands and the frame's physics pass leaves it unheld. -/
theorem thrown_not_recaught (rnd : FrameRand) (hands : Hands) (i : ℕ) (b : Ball)
    (hand : HandPosition) (jit : ℚ) (hvy : hand.vy < THROW_THRESHOLD) :
    (thrownBall hand.vx hand.vy jit b).vy + GRAVITY < -0.01 ∧
    (physicsStep rnd hands i (thrownBall hand.vx hand.vy jit b)).heldBy = none := by
  have hvy' : hand.vy < -0.08 := hvy
  have hv : (thrownBall hand.vx hand.vy jit b).vy + GRAVITY < -0.01 := by
    show hand.vy * 0.25 - 0.005 + GRAVITY < -0.01
    unfold GRAVITY
    nlinarith [hvy']
  refine ⟨hv, ?_⟩
  simp only [physicsStep]
  rw [if_neg (by simp [thrownBall])]
  have hvy1 : ¬(wallBounce (integrateBall (thrownBall hand.vx hand.vy jit b))).vy > -0.01 := by
    rw [wallBounce_vy]
    show ¬(thrownBall hand.vx hand.vy jit b).vy + GRAVITY > -0.01
    exact not_lt.mpr (le_of_lt hv)
  rw [checkHandCatch_of_vy _ hands.left Side.left hvy1,
    checkHandCatch_of_vy _ hands.right Side.right hvy1]
  split_ifs
  · rfl
  · rw [wallBounce_heldBy]
    rfl

/-- Witness for C10 at a concrete fast upward flick. -/
theorem thrown_not_recaught_witness :
    (thrownBall handUpFast.vx handUpFast.vy 0.5 ballHeldLeft).vy + GRAVITY < -0.01 ∧
    (physicsStep rand0 { left := handUpFast, right := handAway } 0
      (thrownBall handUpFast.vx handUpFast.vy 0.5 ballHeldLeft)).heldBy = none :=
  thrown_not_recaught rand0 { left := handUpFast, right := handAway } 0 ballHeldLeft
    handUpFast 0.5 (by norm_num [handUpFast, THROW_THRESHOLD])

@[simp] lemma labelSide_left : labelSide "Left" = Side.left := by
  unfold labelSide
  rw [if_pos rfl]

@[simp] lemma labelSide_right : labelSide "Right" = Side.right := by
  unfold labelSide
  rw [if_neg (by decide)]

lemma onResultsStep_get_other (prev acc : Hands) (p : List Landmark × Handedness)
    (s : Side) (h : labelSide p.2.label ≠ s) :
    (onResultsStep prev acc p).get s = acc.get s := by
  unfold onResultsStep
  cases hl : labelSide p.2.label <;> cases s
  · exact absurd hl h
  · rfl
  · rfl
  · exact absurd hl h

lemma onResultsStep_get_self (prev acc : Hands) (p : List Landmark × Handedness)
    (s : Side) (h : labelSide p.2.label = s) :
    (onResultsStep prev acc p).get s = updateHandFromDetection (prev.get s) p.1 := by
  unfold onResultsStep
  cases hl : labelSide p.2.label <;> cases s
  · rfl
  · rw [hl] at h; exact Side.noConfusion h
  · rw [hl] at h; exact Side.noConfusion h
  · rfl

lemma foldl_onResultsStep_none (prev : Hands) (l : List (List Landmark × Handedness))
    (acc : Hands) (s : Side)
    (h : l.filter (fun p => labelSide p.2.label = s) = []) :
    (l.foldl (onResultsStep prev) acc).get s = acc.get s := by
  induction l generalizing acc with
  | nil => rfl
  | cons q qs ih =>
    have hq : ¬labelSide q.2.label = s := by
      intro hc
      rw [List.filter_cons_of_pos (by simpa using hc)] at h
      exact List.cons_ne_nil _ _ h
    rw [List.filter_cons_of_neg (by simpa using hq)] at h
    simp only [List.foldl_cons]
    rw [ih _ h, onResultsStep_get_other prev acc q s hq]

lemma foldl_onResultsStep_some (prev : Hands) (l : List (List Landmark × Handedness))
    (acc : Hands) (s : Side) (p : List Landmark × Handedness)
    (h : (l.filter (fun q => labelSide q.2.label = s)).getLast? = some p) :
    (l.foldl (onResultsStep prev) acc).get s =
      updateHandFromDetection (prev.get s) p.1 := by
  induction l generalizing acc with
  | nil => simp at h
  | cons q qs ih =>
    simp only [List.foldl_cons]
    by_cases hq : labelSide q.2.label = s
    · rw [List.filter_cons_of_pos (by simpa using hq), List.getLast?_cons] at h
      cases hqs : (qs.filter (fun r => labelSide r.2.label = s)).getLast? with
      | some p' =>
        rw [hqs] at h
        simp only [Option.getD_some, Option.some_inj] at h
        rw [h] at hqs
        exact ih _ hqs
      | none =>
        rw [hqs] at h
        simp only [Option.getD_none, Option.some_inj] at h
        have hnil : qs.filter (fun r => labelSide r.2.label = s) = [] :=
          List.getLast?_eq_none_iff.mp hqs
        rw [foldl_onResultsStep_none prev qs _ s hnil,
          onResultsStep_get_self prev acc q s hq, h]
    · rw [List.filter_cons_of_neg (by simpa using hq)] at h
      exact ih _ h

/-- C8 (amended): the hand-state update processes ALL detections of the frame
in source order — a later detection with the same side label overwrites an
earlier one — the detector configuration (`maxNumHands: 2`) being what limits
a frame to at most 2 detections; for the side's last routed detection the
anchor is landmark index 9, velocity is the one-frame finite difference
against the stored hand, and presence is set true; a side with no detection
keeps its stale position and velocity with presence set false. -/
theorem hand_state_update (res : Results) (prev : Hands) (s : Side) :
    (∀ p0 : List Landmark, lastDetectionFor res s = some p0 →
      (onResultsHands res prev).get s =
        { x := (p0.getD 9 ⟨0, 0, 0⟩).x, y := (p0.getD 9 ⟨0, 0, 0⟩).y,
          vx := (p0.getD 9 ⟨0, 0, 0⟩).x - (prev.get s).x,
          vy := (p0.getD 9 ⟨0, 0, 0⟩).y - (prev.get s).y,
          isPresent := true }) ∧
    (lastDetectionFor res s = none →
      (onResultsHands res prev).get s = { prev.get s with isPresent := false }) := by
  constructor
  · intro p0 hlast
    unfold lastDetectionFor at hlast
    rw [Option.map_eq_some'] at hlast
    obtain ⟨p, hp, hp0⟩ := hlast
    subst hp0
    simp only [onResultsHands]
    rw [foldl_onResultsStep_some prev _ _ s p hp]
    rfl
  · intro hlast
    unfold lastDetectionFor at hlast
    rw [Option.map_eq_none'] at hlast
    have hnil := List.getLast?_eq_none_iff.mp hlast
    simp only [onResultsHands]
    rw [foldl_onResultsStep_none prev _ _ s hnil]
    cases s <;> rfl

/-- C8 counterexample: with three detections (Left, Right, Left) the update
takes the left anchor from the THIRD detection (x = 0.3); processing only the
first 2 would give x = 0.1 — detections beyond the first 2 are not ignored by
the update itself. -/
theorem hand_first2_cex :
    (onResultsHands res3 prevH).left.x = 0.3 ∧
    (onResultsHandsFirst2 res3 prevH).left.x = 0.1 ∧
    onResultsHands res3 prevH ≠ onResultsHandsFirst2 res3 prevH := by
  have h1 : (onResultsHands res3 prevH).left.x = 0.3 := by
    norm_num [onResultsHands, onResultsStep, updateHandFromDetection, res3, prevH,
      lms10, lmAt, lmZ, handAway, List.getD]
  have h2 : (onResultsHandsFirst2 res3 prevH).left.x = 0.1 := by
    norm_num [onResultsHandsFirst2, onResultsHands, onResultsStep, updateHandFromDetection,
      res3, prevH, lms10, lmAt, lmZ, handAway, List.getD]
  refine ⟨h1, h2, fun hc => ?_⟩
  rw [hc, h2] at h1
  norm_num at h1

/-- Witness for the amended C8 at a one-detection frame. -/
theorem hand_state_update_witness :
    (onResultsHands res1 prevH).get Side.left =
      { x := ((lms10 0.4).getD 9 ⟨0, 0, 0⟩).x, y := ((lms10 0.4).getD 9 ⟨0, 0, 0⟩).y,
        vx := ((lms10 0.4).getD 9 ⟨0, 0, 0⟩).x - (prevH.get Side.left).x,
        vy := ((lms10 0.4).getD 9 ⟨0, 0, 0⟩).y - (prevH.get Side.left).y,
        isPresent := true } ∧
    (onResultsHands res1 prevH).get Side.right =
      { prevH.get Side.right with isPresent := false } := by
  refine ⟨(hand_state_update res1 prevH Side.left).1 (lms10 0.4) ?_,
    (hand_state_update res1 prevH Side.right).2 ?_⟩
  · norm_num [lastDetectionFor, res1]
  · norm_num [lastDetectionFor, res1]
